import Mathlib

/-!
# Verification of the Next.js movie demo repository

A shallow embedding of the repository's page and component files
(`app/(home)/page.tsx`, `app/(movies)/movies/[id]/page.tsx`,
`components/movie.tsx`, `components/movie-detail.tsx`,
`components/movie-videos.tsx` and the grid home page) together with
proofs of the specification's claims about them.

JavaScript values that flow through the code are modelled by a `Json`
inductive; `undefined` is modelled by `Option Json` (`none` being
`undefined`).  The network is modelled as an environment
`Http : Request → Response`; each fetch helper returns the request it
issued together with the parsed JSON body, so that theorems can speak
about the exact URL and options of every fetch.
-/

mutual
/-- A JSON value: the parsed body of an API response, and any JS value
the components manipulate other than `undefined`. -/
inductive Json where
  | null : Json
  | bool : Bool → Json
  | num : Int → Json
  | str : String → Json
  | arr : JsonList → Json
  | obj : JsonFields → Json
deriving DecidableEq, Repr
/-- The elements of a JSON array. -/
inductive JsonList where
  | nil : JsonList
  | cons : Json → JsonList → JsonList
deriving DecidableEq, Repr
/-- The key/value fields of a JSON object. -/
inductive JsonFields where
  | nil : JsonFields
  | cons : String → Json → JsonFields → JsonFields
deriving DecidableEq, Repr
end

/-- The elements of a JSON array as a Lean list. -/
def JsonList.toList : JsonList → List Json
  | .nil => []
  | .cons v tl => v :: tl.toList

/-- First field with the given key, if any. -/
def JsonFields.find? : JsonFields → String → Option Json
  | .nil, _ => none
  | .cons k v tl, key => if k == key then some v else tl.find? key

/-- JS property access `v.k`: `none` models `undefined` (missing key or
access on a non-object value). -/
def Json.getField : Json → String → Option Json
  | .obj fields, k => fields.find? k
  | _, _ => none

/-- The elements of an array value; `movies.map` is only ever evaluated
on array responses (on anything else the JS would throw). -/
def Json.arrayElems : Json → List Json
  | .arr l => l.toList
  | _ => []

/-- A JS value (possibly `undefined`) is nullish when it is `undefined`
or `null`; `a ?? b` falls through to `b` exactly on nullish `a`. -/
def isNullish : Option Json → Bool
  | none => true
  | some .null => true
  | some _ => false

/-- JS nullish coalescing `a ?? b` where both sides may be `undefined`,
as in `movie.poster_path ?? movie.backdrop_path`. -/
def nullishCoalesce (a b : Option Json) : Option Json :=
  if isNullish a then b else a

/-- JS nullish coalescing `a ?? b` where `b` is a plain (defined)
value, as in `poster_path ?? ""`. -/
def coalesce (a : Option Json) (b : Json) : Json :=
  match a with
  | none => b
  | some .null => b
  | some v => v

/-- One character of a JSON string literal, escaped as
`JSON.stringify` escapes it. -/
def escapeChar (c : Char) : String :=
  if c = '"' then "\\\""
  else if c = '\\' then "\\\\"
  else if c = '\n' then "\\n"
  else String.singleton c

/-- A JSON string literal: the string quoted and escaped. -/
def quoteJson (s : String) : String :=
  "\"" ++ String.join (s.toList.map escapeChar) ++ "\""

mutual
/-- `JSON.stringify` on a JSON value. -/
def Json.stringify : Json → String
  | .null => "null"
  | .bool b => if b then "true" else "false"
  | .num n => toString n
  | .str s => quoteJson s
  | .arr l => "[" ++ Json.stringifyList l ++ "]"
  | .obj f => "\x7b" ++ Json.stringifyFields f ++ "\x7d"
/-- `JSON.stringify` of array elements, comma separated. -/
def Json.stringifyList : JsonList → String
  | .nil => ""
  | .cons v .nil => Json.stringify v
  | .cons v tl => Json.stringify v ++ "," ++ Json.stringifyList tl
/-- `JSON.stringify` of object fields, comma separated. -/
def Json.stringifyFields : JsonFields → String
  | .nil => ""
  | .cons k v .nil => quoteJson k ++ ":" ++ Json.stringify v
  | .cons k v tl => quoteJson k ++ ":" ++ Json.stringify v ++ "," ++ Json.stringifyFields tl
end

mutual
/-- JS string coercion `String(v)` of a defined value, as performed by
template-literal interpolation. -/
def jsToStringValue : Json → String
  | .null => "null"
  | .bool b => if b then "true" else "false"
  | .num n => toString n
  | .str s => s
  | .arr l => jsArrayJoinItems l
  | .obj _ => "[object Object]"
/-- JS `Array.prototype.toString`: elements joined by commas, `null`
rendering as the empty string. -/
def jsArrayJoinItems : JsonList → String
  | .nil => ""
  | .cons .null .nil => ""
  | .cons v .nil => jsToStringValue v
  | .cons .null tl => "," ++ jsArrayJoinItems tl
  | .cons v tl => jsToStringValue v ++ "," ++ jsArrayJoinItems tl
end

/-- JS string coercion of a possibly-`undefined` value, as a template
literal interpolates it. -/
def jsDisplay : Option Json → String
  | none => "undefined"
  | some v => jsToStringValue v

mutual
/-- The text React renders for a JS value appearing as a child:
strings as themselves, numbers decimally, and nothing for `null`,
booleans and plain objects (no object reaches a child position here). -/
def reactTextValue : Json → String
  | .null => ""
  | .bool _ => ""
  | .num n => toString n
  | .str s => s
  | .arr l => reactTextList l
  | .obj _ => ""
/-- React renders an array child as the concatenation of its
elements. -/
def reactTextList : JsonList → String
  | .nil => ""
  | .cons v tl => reactTextValue v ++ reactTextList tl
end

/-- The text React renders for a possibly-`undefined` child value
(`undefined` renders nothing). -/
def reactText : Option Json → String
  | none => ""
  | some v => reactTextValue v

mutual
/-- Rendered markup.  An element carries its tag, its attributes (a JS
value per attribute, possibly `undefined`), and its children; a
`suspense` node carries its fallback and its content. -/
inductive Html where
  | text : String → Html
  | elem : String → List (String × Option Json) → HtmlList → Html
  | suspense : Html → Html → Html
deriving DecidableEq, Repr
/-- Children of an element. -/
inductive HtmlList where
  | nil : HtmlList
  | cons : Html → HtmlList → HtmlList
deriving DecidableEq, Repr
end

/-- Children built from a Lean list. -/
def HtmlList.ofList : List Html → HtmlList
  | [] => .nil
  | h :: t => .cons h (HtmlList.ofList t)

/-- Children of an element as a Lean list. -/
def HtmlList.toList : HtmlList → List Html
  | .nil => []
  | .cons h t => h :: t.toList

/-- The tag of an element node. -/
def Html.tag : Html → Option String
  | .elem t _ _ => some t
  | _ => none

/-- The children of an element node. -/
def Html.children : Html → List Html
  | .elem _ _ cs => cs.toList
  | _ => []

/-- The value of an attribute of an element node (`none` when the
attribute is absent or set to `undefined`). -/
def Html.attrValue : Html → String → Option Json
  | .elem _ attrs _, k =>
    match attrs.find? (fun a => a.1 == k) with
    | some (_, v) => v
    | none => none
  | _, _ => none

/-- The fallback of a suspense boundary. -/
def Html.fallbackOf : Html → Option Html
  | .suspense f _ => some f
  | _ => none

/-- The wrapped content of a suspense boundary. -/
def Html.contentOf : Html → Option Html
  | .suspense _ c => some c
  | _ => none

mutual
/-- All text rendered inside a node, in order (a suspense boundary
contributing its content). -/
def Html.innerText : Html → String
  | .text s => s
  | .elem _ _ cs => HtmlList.innerText cs
  | .suspense _ c => Html.innerText c
/-- All text rendered by a list of children, in order. -/
def HtmlList.innerText : HtmlList → String
  | .nil => ""
  | .cons h t => Html.innerText h ++ HtmlList.innerText t
end

/-! ## The network model -/

/-- The options object passed to `fetch` (only the `cache` member is
ever used by this repository). -/
structure FetchOptions where
  cache : Option String
deriving DecidableEq, Repr

/-- An HTTP request as `fetch` issues it: method, URL and options.
`fetch(url, opts)` always uses the GET method here, no call site
setting a `method` option. -/
structure Request where
  method : String
  url : String
  options : FetchOptions
deriving DecidableEq, Repr

/-- An HTTP response: a status code and the JSON value its body
parses to. -/
structure Response where
  status : Nat
  body : Json
deriving DecidableEq, Repr

/-- The network environment: what response the remote API gives each
request. -/
def Http := Request → Response

/-- `fetch` called with no options object, as in the `Hello` client
component. -/
def noOptions : FetchOptions := { cache := none }

/-- The options object `{ cache: "force-cache" }` passed by every
server-side fetch helper. -/
def forceCache : FetchOptions := { cache := some "force-cache" }

/-- Modelled from the spec: `lib/config` (not under the sources given)
exports the fixed API base URL configuration value; the client
component hardcodes the same movies endpoint, so that value is used
here.  Every theorem below depends only on the constant symbolically,
never on its contents. -/
def API_URL : String := "https://nomad-movies.nomadcoders.workers.dev/movies"

/-! ## components/movie-detail.tsx -/

/-- The request `getMovie(id)` issues: GET on `API_URL/id` with
`cache: "force-cache"`. -/
def getMovieRequest (id : String) : Request :=
  { method := "GET", url := API_URL ++ "/" ++ id, options := forceCache }

/-- `getMovie(id)`: fetch the movie detail and return the parsed JSON
body (paired with the request issued, so theorems can inspect it). -/
def getMovie (http : Http) (id : String) : Request × Json :=
  (getMovieRequest id, (http (getMovieRequest id)).body)

/-- `MovieDetail`: awaits `getMovie(id)` and renders
`<h3>{JSON.stringify(movie)}</h3>`. -/
def MovieDetail (http : Http) (id : String) : Html :=
  .elem "h3" [] (.ofList [.text (Json.stringify (getMovie http id).2)])

/-! ## components/movie-videos.tsx -/

/-- The request `getVideos(id)` issues: GET on `API_URL/id/videos`
with `cache: "force-cache"`. -/
def getVideosRequest (id : String) : Request :=
  { method := "GET", url := API_URL ++ "/" ++ id ++ "/videos", options := forceCache }

/-- `getVideos(id)`: fetch the video list and return the parsed JSON
body.  The `throw new Error("Videos loading failed")` in the source is
commented out, so the function is total: no error branch exists. -/
def getVideos (http : Http) (id : String) : Request × Json :=
  (getVideosRequest id, (http (getVideosRequest id)).body)

/-- `MovieVideos`: awaits `getVideos(id)` and renders
`<h4>{JSON.stringify(videos)}</h4>`. -/
def MovieVideos (http : Http) (id : String) : Html :=
  .elem "h4" [] (.ofList [.text (Json.stringify (getVideos http id).2)])

/-! ## app/(movies)/movies/[id]/page.tsx (detail page with suspense) -/

/-- `MovieDetailPage`: awaits the route params for `id` and renders
the two components, each inside its own `Suspense` boundary with its
own fallback heading. -/
def MovieDetailPage (http : Http) (id : String) : Html :=
  .elem "div" [] (.ofList
    [ .suspense (.elem "h1" [] (.ofList [.text "Loading Movie..."])) (MovieDetail http id),
      .suspense (.elem "h1" [] (.ofList [.text "Loading Videos..."])) (MovieVideos http id)])

/-! ## components/movie.tsx -/

/-- The props of the `Movie` client component.  The TS interface
declares all three as `string`, but the grid home page call site can
pass a nullish `poster_path`, so the props are modelled as the JS
values they are at runtime (`Option Json`, `none` = `undefined`). -/
structure MovieProps where
  id : Option Json
  poster_path : Option Json
  title : Option Json
deriving DecidableEq, Repr

/-- `Movie`: renders a div holding an `img` with
`src={poster_path ?? ""}` and `alt={title}`, and a `Link` to
`/movies/id` showing the title.  The `onClick` router push is an
event handler, not rendered data, and the CSS-module class is an
opaque token. -/
def Movie (p : MovieProps) : Html :=
  .elem "div" [("className", some (.str "movie"))] (.ofList
    [ .elem "img" [("src", some (coalesce p.poster_path (.str ""))), ("alt", p.title)] .nil,
      .elem "Link" [("href", some (.str ("/movies/" ++ jsDisplay p.id)))]
        (.ofList [.text (reactText p.title)])])

/-! ## app/(home)/page.tsx (link-list home page) -/

namespace HomeList

/-- The request the link-list home page's `getMovies` issues: GET on
`API_URL` with `cache: "force-cache"`. -/
def getMoviesRequest : Request :=
  { method := "GET", url := API_URL, options := forceCache }

/-- `getMovies()` of `app/(home)/page.tsx`: fetch `API_URL` and return
the parsed JSON body (the 1s delay in the source is commented out). -/
def getMovies (http : Http) : Request × Json :=
  (getMoviesRequest, (http getMoviesRequest).body)

/-- One `<li>` of the home page list: a `Link` to `/movies/id`
showing the movie's title. -/
def listItem (movie : Json) : Html :=
  .elem "li" []
    (.ofList
      [ .elem "Link" [("href", some (.str ("/movies/" ++ jsDisplay (movie.getField "id"))))]
          (.ofList [.text (reactText (movie.getField "title"))])])

/-- `HomePage` of `app/(home)/page.tsx`: heading plus one list item
per fetched movie. -/
def HomePage (http : Http) : Html :=
  .elem "div" [] (.ofList
    [ .elem "h1" [] (.ofList [.text "Hello NextJS"]),
      .elem "ul" [] (.ofList ((getMovies http).2.arrayElems.map listItem))])

end HomeList

/-! ## The grid home page (Movie-component home page) -/

namespace HomeGrid

/-- The request the grid home page's `getMovies` issues: GET on
`API_URL` with `cache: "force-cache"`. -/
def getMoviesRequest : Request :=
  { method := "GET", url := API_URL, options := forceCache }

/-- `getMovies()` of the grid home page: fetch `API_URL` and return
the parsed JSON body (the 1s delay in the source is commented out). -/
def getMovies (http : Http) : Request × Json :=
  (getMoviesRequest, (http getMoviesRequest).body)

/-- The props the grid home page passes to `Movie` for one record:
`id={movie.id}`, `title={movie.title}`,
`poster_path={movie.poster_path ?? movie.backdrop_path}`. -/
def moviePropsOf (movie : Json) : MovieProps :=
  { id := movie.getField "id"
    poster_path := nullishCoalesce (movie.getField "poster_path") (movie.getField "backdrop_path")
    title := movie.getField "title" }

/-- `HomePage` of the grid home page: one `Movie` component per
fetched record. -/
def HomePage (http : Http) : Html :=
  .elem "div" [("className", some (.str "container"))]
    (.ofList ((getMovies http).2.arrayElems.map (fun m => Movie (moviePropsOf m))))

end HomeGrid

/-! ## The Hello client component -/

namespace Hello

/-- The URL the `Hello` client component hardcodes. -/
def moviesURL : String := "https://nomad-movies.nomadcoders.workers.dev/movies"

/-- The request `Hello`'s local `getMovies` issues: a plain
`fetch(url)` with no options object at all. -/
def request : Request :=
  { method := "GET", url := moviesURL, options := noOptions }

/-- `Hello`'s local `getMovies`: fetch the hardcoded URL and parse the
body; the component then applies `setMovies(json)` followed by
`setIsLoading(false)`. -/
def getMovies (http : Http) : Request × Json :=
  (request, (http request).body)

/-- The component state: the `(isLoading, movies)` `useState` pair
plus a program counter for the effect (`0`: effect not yet run, `1`:
`setMovies` applied, `2`: `setIsLoading(false)` applied). -/
structure State where
  pc : Nat
  isLoading : Bool
  movies : Json
deriving DecidableEq, Repr

/-- The initial state: `useState(true)` and `useState([])`, effect
not yet run. -/
def init : State := { pc := 0, isLoading := true, movies := .arr .nil }

/-- One state update of the component: the effect's two `set` calls
in their source order (`setMovies(json)` strictly before
`setIsLoading(false)`). -/
inductive Step (http : Http) : State → State → Prop
  | setMovies (s : State) : s.pc = 0 →
      Step http s { pc := 1, isLoading := s.isLoading, movies := (getMovies http).2 }
  | setIsLoadingFalse (s : State) : s.pc = 1 →
      Step http s { pc := 2, isLoading := false, movies := s.movies }

/-- The states the component can be in: the initial state and
everything the effect's updates lead to. -/
inductive Reachable (http : Http) : State → Prop
  | init : Reachable http init
  | step {s t : State} : Reachable http s → Step http s t → Reachable http t

/-- What `Hello` renders in a given state: the heading, then
`"Loading Movies..."` while loading and `JSON.stringify(movies)`
afterwards. -/
def render (s : State) : Html :=
  .elem "div" [] (.ofList
    [ .elem "h1" [] (.ofList [.text "Hello NextJS"]),
      if s.isLoading then .text "Loading Movies..." else .text (Json.stringify s.movies)])

end Hello

/-! ## Every fetch call site of the repository -/

/-- The requests of the repository's five `fetch` call sites, for a
given route `id`: the two home pages' `getMovies`, `getMovie(id)`,
`getVideos(id)`, and the `Hello` client component's local
`getMovies`. -/
def allRequests (id : String) : List Request :=
  [ HomeList.getMoviesRequest, HomeGrid.getMoviesRequest,
    getMovieRequest id, getVideosRequest id, Hello.request ]

/-- The four server-side requests among them (every call site except
the `Hello` client component's). -/
def serverRequests (id : String) : List Request :=
  [ HomeList.getMoviesRequest, HomeGrid.getMoviesRequest,
    getMovieRequest id, getVideosRequest id ]

/-! ## Concrete inputs used by witnesses and counterexamples -/

/-- A movie record as the API can return it: `poster_path` is `null`
and `backdrop_path` carries the image path. -/
def rEx : Json :=
  .obj (.cons "id" (.num 1) (.cons "title" (.str "T")
    (.cons "poster_path" .null (.cons "backdrop_path" (.str "B") .nil))))

/-- A network environment whose movie list holds exactly `rEx`. -/
def httpEx : Http := fun _ => { status := 200, body := .arr (.cons rEx .nil) }

/-- A network environment answering every request with an empty
list. -/
def http0 : Http := fun _ => { status := 200, body := .arr .nil }

/-- The `Hello` component's state after its effect has completed under
`http0`. -/
def sFinal : Hello.State := { pc := 2, isLoading := false, movies := .arr .nil }

/-- `Movie` props with no poster path supplied. -/
def pW : MovieProps := { id := some (.num 1), poster_path := none, title := some (.str "T") }

/-- The `img` element `Movie pW` renders. -/
def imgW : Html := .elem "img" [("src", some (.str "")), ("alt", some (.str "T"))] .nil

/-! ## Helper lemmas -/

/-- The `Hello` component's reachable states are exactly: the initial
state, the state right after `setMovies(json)`, and the state after
`setIsLoading(false)`. -/
theorem Hello.reachable_cases (http : Http) (s : Hello.State) (h : Hello.Reachable http s) :
    s = Hello.init ∨
    s = { pc := 1, isLoading := true, movies := (Hello.getMovies http).2 } ∨
    s = { pc := 2, isLoading := false, movies := (Hello.getMovies http).2 } := by
  induction h with
  | init => exact Or.inl rfl
  | step hr hstep ih =>
    cases hstep with
    | setMovies hpc =>
      rcases ih with h0 | h1 | h1
      · subst h0; exact Or.inr (Or.inl rfl)
      · rw [h1] at hpc; simp at hpc
      · rw [h1] at hpc; simp at hpc
    | setIsLoadingFalse hpc =>
      rcases ih with h0 | h1 | h1
      · rw [h0] at hpc; simp [Hello.init] at hpc
      · subst h1; exact Or.inr (Or.inr rfl)
      · rw [h1] at hpc; simp at hpc

/-- Under `http0` the `Hello` effect can run to completion: the final
state is reachable. -/
theorem reachable_final_http0 : Hello.Reachable http0 sFinal := by
  have h1 : Hello.Step http0 Hello.init { pc := 1, isLoading := true, movies := .arr .nil } := by
    have h := @Hello.Step.setMovies http0 Hello.init rfl
    simpa [Hello.init, Hello.getMovies, http0] using h
  have h2 : Hello.Step http0 { pc := 1, isLoading := true, movies := .arr .nil } sFinal :=
    Hello.Step.setIsLoadingFalse _ rfl
  exact Hello.Reachable.step (Hello.Reachable.step Hello.Reachable.init h1) h2

/-! ## The claims -/

/-- C2: for every id string, `getMovies` issues a GET request to
exactly `API_URL`, `getMovie(id)` to exactly `API_URL/id`, and
`getVideos(id)` to exactly `API_URL/id/videos`, and each returns the
parsed JSON body of the response to the request it issued, without
validation. -/
theorem fetch_urls_exact (http : Http) (id : String) :
    (HomeList.getMovies http).1.method = "GET" ∧
    (HomeList.getMovies http).1.url = API_URL ∧
    (HomeList.getMovies http).2 = (http (HomeList.getMovies http).1).body ∧
    (getMovie http id).1.method = "GET" ∧
    (getMovie http id).1.url = API_URL ++ "/" ++ id ∧
    (getMovie http id).2 = (http (getMovie http id).1).body ∧
    (getVideos http id).1.method = "GET" ∧
    (getVideos http id).1.url = API_URL ++ "/" ++ id ++ "/videos" ∧
    (getVideos http id).2 = (http (getVideos http id).1).body :=
  ⟨rfl, rfl, rfl, rfl, rfl, rfl, rfl, rfl, rfl⟩

/-- C3: for every HTTP response, including non-success statuses, the
three fetch helpers return the parsed JSON body with no error branch:
the result is the body of the response to the issued request for
every environment, and in particular for an environment answering
with an arbitrary status code the body comes back unchanged. -/
theorem fetch_helpers_no_error_branch (http : Http) (id : String) (status : Nat) (body : Json) :
    (getMovie http id).2 = (http (getMovieRequest id)).body ∧
    (getVideos http id).2 = (http (getVideosRequest id)).body ∧
    (HomeList.getMovies http).2 = (http HomeList.getMoviesRequest).body ∧
    (getMovie (fun _ => { status := status, body := body }) id).2 = body ∧
    (getVideos (fun _ => { status := status, body := body }) id).2 = body ∧
    (HomeList.getMovies (fun _ => { status := status, body := body })).2 = body :=
  ⟨rfl, rfl, rfl, rfl, rfl, rfl⟩

/-- C4: for every value the videos endpoint returns, `MovieVideos`
renders an `h4` whose only child is the text `JSON.stringify` of that
value, and for every value the detail endpoint returns, `MovieDetail`
renders an `h3` whose only child is the text `JSON.stringify` of that
value. -/
theorem render_stringified_json (http : Http) (id : String) :
    (MovieVideos http id).tag = some "h4" ∧
    (MovieVideos http id).children = [.text (Json.stringify (getVideos http id).2)] ∧
    (MovieVideos http id).innerText = Json.stringify (getVideos http id).2 ∧
    (MovieDetail http id).tag = some "h3" ∧
    (MovieDetail http id).children = [.text (Json.stringify (getMovie http id).2)] ∧
    (MovieDetail http id).innerText = Json.stringify (getMovie http id).2 := by
  refine ⟨rfl, rfl, ?_, rfl, rfl, ?_⟩ <;>
    simp [MovieVideos, MovieDetail, Html.innerText, HtmlList.innerText, HtmlList.ofList]

/-- C5: the two home pages' `getMovies` definitions are extensionally
equal: they build the same request (same URL, same options) and return
the same value in every environment. -/
theorem getMovies_shared (http : Http) :
    HomeList.getMovies http = HomeGrid.getMovies http ∧
    HomeList.getMoviesRequest = HomeGrid.getMoviesRequest ∧
    (HomeList.getMovies http).1.url = API_URL :=
  ⟨rfl, rfl, rfl⟩

/-- C6: for every id, the movie detail page renders a `div` whose two
children are, in order, a suspense boundary with fallback heading
"Loading Movie..." wrapping exactly `MovieDetail`, and a separate
suspense boundary with fallback heading "Loading Videos..." wrapping
exactly `MovieVideos`. -/
theorem detail_page_suspense_boundaries (http : Http) (id : String) :
    (MovieDetailPage http id).tag = some "div" ∧
    (MovieDetailPage http id).children.map Html.contentOf
      = [some (MovieDetail http id), some (MovieVideos http id)] ∧
    (MovieDetailPage http id).children.map Html.fallbackOf
      = [some (.elem "h1" [] (.ofList [.text "Loading Movie..."])),
         some (.elem "h1" [] (.ofList [.text "Loading Videos..."]))] :=
  ⟨rfl, rfl, rfl⟩

/-- C1, counterexample: the grid home page does pass `rEx` to the
`Movie` component, but the `poster_path` prop it passes is not the
record's `poster_path` field (which is `null`): `backdrop_path` has
been substituted for it. -/
theorem movie_props_substitution_counterexample :
    (HomeGrid.HomePage httpEx).children.get? 0 = some (Movie (HomeGrid.moviePropsOf rEx)) ∧
    (HomeGrid.moviePropsOf rEx).poster_path ≠ rEx.getField "poster_path" := by
  decide

/-- C1, amended: the grid home page passes `id` and `title` to the
`Movie` component unchanged; the `poster_path` prop equals the
record's `poster_path` field when that field is neither null nor
undefined, and the record's `backdrop_path` field otherwise.  The
link-list home page renders each record's title as the list item's
text and links to `/movies/` followed by the record's id. -/
theorem homeGrid_movie_props_amended (movie : Json) :
    (HomeGrid.moviePropsOf movie).id = movie.getField "id" ∧
    (HomeGrid.moviePropsOf movie).title = movie.getField "title" ∧
    (isNullish (movie.getField "poster_path") = false →
      (HomeGrid.moviePropsOf movie).poster_path = movie.getField "poster_path") ∧
    (isNullish (movie.getField "poster_path") = true →
      (HomeGrid.moviePropsOf movie).poster_path = movie.getField "backdrop_path") ∧
    (∀ t, movie.getField "title" = some (.str t) →
      (HomeList.listItem movie).innerText = t) ∧
    (HomeList.listItem movie).children.map (fun c => c.attrValue "href")
      = [some (.str ("/movies/" ++ jsDisplay (movie.getField "id")))] := by
  refine ⟨rfl, rfl, ?_, ?_, ?_, rfl⟩
  · intro h; simp [HomeGrid.moviePropsOf, nullishCoalesce, h]
  · intro h; simp [HomeGrid.moviePropsOf, nullishCoalesce, h]
  · intro t ht
    simp [HomeList.listItem, Html.innerText, HtmlList.innerText, HtmlList.ofList, ht,
      reactText, reactTextValue]

/-- C1, witness for the amended theorem at the record `rEx`. -/
theorem homeGrid_movie_props_amended_witness :
    isNullish (rEx.getField "poster_path") = true ∧
    (HomeGrid.moviePropsOf rEx).poster_path = rEx.getField "backdrop_path" ∧
    (HomeList.listItem rEx).innerText = "T" := by
  obtain ⟨h1, h2, h3, h4, h5, h6⟩ := homeGrid_movie_props_amended rEx
  exact ⟨by decide, h4 (by decide), h5 "T" (by decide)⟩

/-- C7, counterexample: the `Hello` client component's `getMovies` is
a fetch call site of the repository, and it does not pass
`cache: "force-cache"` (it passes no options at all). -/
theorem hello_fetch_cache_counterexample :
    Hello.request ∈ allRequests "1" ∧
    Hello.request.options.cache ≠ some "force-cache" := by
  decide

/-- C7, amended: every server-side fetch (`getMovies` of both home
pages, `getMovie`, `getVideos`) passes `cache: "force-cache"`; the
`Hello` client component's fetch passes no cache option at all; and
no fetch in the repository explicitly opts out of caching by passing
`cache: "no-store"`. -/
theorem fetch_cache_amended (id : String) :
    (∀ req ∈ serverRequests id, req.options.cache = some "force-cache") ∧
    Hello.request.options.cache = none ∧
    (∀ req ∈ allRequests id, req.options.cache ≠ some "no-store") := by
  refine ⟨?_, rfl, ?_⟩ <;> intro req hreq
  · simp [serverRequests] at hreq
    rcases hreq with h | h | h | h <;> subst h <;> rfl
  · simp [allRequests] at hreq
    rcases hreq with h | h | h | h | h <;> subst h <;> simp
      [HomeList.getMoviesRequest, HomeGrid.getMoviesRequest, getMovieRequest,
       getVideosRequest, Hello.request, forceCache, noOptions]

/-- C7, witness for the amended theorem at id `"1"` and the
`getMovie` request. -/
theorem fetch_cache_amended_witness :
    (getMovieRequest "1").options.cache = some "force-cache" ∧
    Hello.request.options.cache ≠ some "no-store" :=
  ⟨(fetch_cache_amended "1").1 (getMovieRequest "1") (by decide),
   (fetch_cache_amended "1").2.2 Hello.request (by decide)⟩

/-- C8, counterexample: under a fixed environment (fixed props and
fetched data), the `Hello` component has two reachable states that
render differently, so its rendering is not a pure function of props
and fetched data — it owns a loading state machine. -/
theorem hello_stateless_counterexample :
    Hello.Reachable http0 Hello.init ∧
    Hello.Reachable http0 sFinal ∧
    Hello.render Hello.init ≠ Hello.render sFinal :=
  ⟨Hello.Reachable.init, reachable_final_http0, by decide⟩

/-- C8, amended: every component except the `Hello` client component
renders as a pure function of its props and the fetched data; `Hello`
maintains the `(isLoading, movies)` state pair, whose reachable states
are exactly the three stages of its loading machine: the initial
state, the state after `setMovies`, and the state after
`setIsLoading(false)`. -/
theorem hello_state_machine_amended (http : Http) (s : Hello.State)
    (h : Hello.Reachable http s) :
    s = Hello.init ∨
    s = { pc := 1, isLoading := true, movies := (Hello.getMovies http).2 } ∨
    s = { pc := 2, isLoading := false, movies := (Hello.getMovies http).2 } :=
  Hello.reachable_cases http s h

/-- C8, witness for the amended theorem at the completed state under
`http0`. -/
theorem hello_state_machine_amended_witness :
    sFinal = Hello.init ∨
    sFinal = { pc := 1, isLoading := true, movies := (Hello.getMovies http0).2 } ∨
    sFinal = { pc := 2, isLoading := false, movies := (Hello.getMovies http0).2 } :=
  hello_state_machine_amended http0 sFinal reachable_final_http0

/-- C9: in every reachable state of the `Hello` component, whenever
`isLoading` is false the `movies` state holds the JSON value fetched
from the movies endpoint, and the component renders the text
"Loading Movies..." exactly when `isLoading` is true and
`JSON.stringify(movies)` when it is false. -/
theorem hello_loading_invariant (http : Http) (s : Hello.State)
    (h : Hello.Reachable http s) :
    (s.isLoading = false → s.movies = (Hello.getMovies http).2) ∧
    (s.isLoading = true → Hello.render s = .elem "div" [] (.ofList
      [.elem "h1" [] (.ofList [.text "Hello NextJS"]), .text "Loading Movies..."])) ∧
    (s.isLoading = false → Hello.render s = .elem "div" [] (.ofList
      [.elem "h1" [] (.ofList [.text "Hello NextJS"]),
       .text (Json.stringify s.movies)])) := by
  refine ⟨?_, ?_, ?_⟩
  · intro hl
    rcases Hello.reachable_cases http s h with h0 | h1 | h1
    · rw [h0] at hl; simp [Hello.init] at hl
    · rw [h1] at hl; simp at hl
    · rw [h1]
  · intro hl; simp [Hello.render, hl, HtmlList.ofList]
  · intro hl; simp [Hello.render, hl, HtmlList.ofList]

/-- C9, witness at the completed state under `http0`. -/
theorem hello_loading_invariant_witness :
    sFinal.isLoading = false ∧
    sFinal.movies = (Hello.getMovies http0).2 ∧
    Hello.render sFinal = .elem "div" [] (.ofList
      [.elem "h1" [] (.ofList [.text "Hello NextJS"]), .text "[]"]) := by
  obtain ⟨h1, h2, h3⟩ := hello_loading_invariant http0 sFinal reachable_final_http0
  refine ⟨rfl, h1 rfl, ?_⟩
  rw [h3 rfl]
  decide

/-- C10: for every input to the `Movie` component, the `src`
attribute of the rendered `img` element is never nullish: it equals
the `poster_path` prop when that prop is neither null nor undefined,
and the string `""` otherwise. -/
theorem movie_img_src_safe (p : MovieProps) (img : Html)
    (himg : (Movie p).children.get? 0 = some img) :
    isNullish (img.attrValue "src") = false ∧
    (isNullish p.poster_path = true → img.attrValue "src" = some (.str "")) ∧
    (isNullish p.poster_path = false → img.attrValue "src" = p.poster_path) := by
  have himg2 : img
      = .elem "img" [("src", some (coalesce p.poster_path (.str ""))), ("alt", p.title)] .nil := by
    simp [Movie, Html.children, HtmlList.ofList, HtmlList.toList] at himg
    exact himg.symm
  subst himg2
  rcases hpp : p.poster_path with _ | v
  · simp [Html.attrValue, coalesce, isNullish]
  · cases v <;> simp [Html.attrValue, coalesce, isNullish]

/-- C10, witness at props with no poster path supplied. -/
theorem movie_img_src_safe_witness :
    isNullish pW.poster_path = true ∧
    imgW.attrValue "src" = some (.str "") := by
  have h := movie_img_src_safe pW imgW (by decide)
  exact ⟨by decide, h.2.1 (by decide)⟩
